import Mathlib

/-!
Verification of the media-generation pipeline of the storyteller backend.

The definitions below are a shallow embedding of the Python source:

* Scene Segmenter: backend/app/routes/story.py, function _split_text_into_scenes
* Image Stage retry policy: backend/app/services/image_service.py, generate_image
* Video Assembly numerics: backend/app/services/video_service.py,
  create_video_from_images / _create_video_with_transitions / add_audio_to_video
* Job Orchestrator: backend/app/routes/story.py, _process_story_generation
* Story CRUD ownership checks: backend/app/routes/story.py,
  _verify_story_ownership / get_story / update_story / delete_story

Text is modelled as List Char; Python ASCII whitespace and the splitting
behaviour of str.split, str.strip and re.split with the pattern
lookbehind[.!?] followed by one-or-more-whitespace are modelled explicitly.
Python floats are modelled as exact rationals.
-/

set_option autoImplicit false

namespace Storyteller

/-! ### Python string primitives -/

/-- ASCII whitespace characters recognised by Python str.strip and the
regex class backslash-s. -/
def isPyWs (c : Char) : Bool :=
  c = ' ' || c = '\t' || c = '\n' || c = '\r' || c = '\x0b' || c = '\x0c'

/-- Python str.strip(): drop leading and trailing whitespace. -/
def pyStrip (s : List Char) : List Char :=
  ((s.dropWhile isPyWs).reverse.dropWhile isPyWs).reverse

/-- Python text.split with separator two newline characters, scanning left to
right for non-overlapping occurrences (story.py line 46). -/
def splitNN (acc : List Char) : List Char → List (List Char)
  | c :: d :: rest =>
    if c = '\n' && d = '\n' then acc.reverse :: splitNN [] rest
    else splitNN (c :: acc) (d :: rest)
  | [c] => [(c :: acc).reverse]
  | [] => [acc.reverse]

/-- Sentence terminators of the segmenter regex (story.py line 52). -/
def isTerm (c : Char) : Bool :=
  c = '.' || c = '!' || c = '?'

/-- Test whether a list starts with a whitespace character. -/
def headIsWs : List Char → Bool
  | d :: _ => isPyWs d
  | [] => false

/-- One-pass scanner implementing Python re.split with the pattern
lookbehind[.!?] then backslash-s-plus (story.py line 52): a split happens at
each maximal whitespace run immediately preceded by a sentence terminator,
and the whitespace run is dropped. The skipping flag is true while the
scanner is inside the whitespace run of a match. -/
def sentGo (skipping : Bool) (acc : List Char) : List Char → List (List Char)
  | [] => [acc.reverse]
  | c :: rest =>
    if skipping && isPyWs c then sentGo true acc rest
    else if isTerm c && headIsWs rest then (c :: acc).reverse :: sentGo true [] rest
    else sentGo false (c :: acc) rest

/-- Python re.split of the segmenter regex over a whole string. -/
def sentSplit (s : List Char) : List (List Char) :=
  sentGo false [] s

/-- Python single-space join of a list of strings (story.py line 62). -/
def joinSpace : List (List Char) → List Char
  | [] => []
  | [s] => s
  | s :: rest => s ++ ' ' :: joinSpace rest

/-- The bucketing loop of the segmenter (story.py lines 61-64): repeatedly
take cpred+1 sentences, join them with spaces, keep non-empty results.
The Python chunk size scenes_per_chunk is cpred+1 (it is at least 1 on the
branch where the loop runs). -/
def chunkJoin (cpred : Nat) : List (List Char) → List (List Char)
  | [] => []
  | x :: xs =>
    let scene := joinSpace ((x :: xs).take (cpred + 1))
    if scene = [] then chunkJoin cpred (xs.drop cpred)
    else scene :: chunkJoin cpred (xs.drop cpred)
termination_by l => l.length
decreasing_by
  all_goals simp_wf
  all_goals omega

/-- The trimmed non-empty paragraphs of the segmenter (story.py line 46). -/
def segParagraphs (text : List Char) : List (List Char) :=
  ((splitNN [] text).map pyStrip).filter (fun p => p ≠ [])

/-- The sentence list of the segmenter (story.py line 52). -/
def segSentences (text : List Char) : List (List Char) :=
  sentSplit (pyStrip text)

/-- Shallow embedding of _split_text_into_scenes (story.py lines 34-66). -/
def splitTextIntoScenes (text : List Char) (maxScenes : Nat) : List (List Char) :=
  let paragraphs := segParagraphs text
  if 2 ≤ paragraphs.length ∧ paragraphs.length ≤ maxScenes then
    paragraphs
  else
    let sentences := segSentences text
    if sentences.length ≤ maxScenes then
      sentences
    else
      let chunk := sentences.length / maxScenes
      (chunkJoin (chunk - 1) sentences).take maxScenes

/-- String-level wrapper for the segmenter. -/
def splitScenesStr (text : String) (maxScenes : Nat) : List String :=
  (splitTextIntoScenes text.toList maxScenes).map (fun l => String.mk l)

/-- The non-whitespace characters of a list, in order; used to state that the
segmenter preserves the input order of the visible text. -/
def nws (l : List Char) : List Char :=
  l.filter (fun c => !isPyWs c)

/-- A piece is trimmed and non-empty when it is non-empty and neither end is
whitespace. -/
def goodPiece (p : List Char) : Prop :=
  p ≠ [] ∧ headIsWs p = false ∧ headIsWs p.reverse = false

/-! ### Job Orchestrator model (story.py, _process_story_generation) -/

/-- A local file, as (directory, file name); story.py builds every
pipeline-local file as temp_dir / name. -/
structure LocalPath where
  dir : String
  name : String
deriving DecidableEq, Repr

/-- The fields of the persisted story document that the pipeline writes
(Firestore document in the stories collection); timestamps are omitted and
the cloudinary_ids bookkeeping map is not tracked because no claim refers to
them. -/
structure JobRecord where
  status : String
  error : Option String
  image_urls : List String
  audio_url : Option String
  video_url : Option String
deriving DecidableEq, Repr

/-- Outcomes of the external collaborators for one run. imageOk i is whether
image generation for 1-based scene i succeeds after its internal retries;
audioOk / videoOk are the narration and video-assembly outcomes; the upload
fields give the secure URL on success and none when the upload fails or
raises (the code treats both alike by skipping the asset). -/
structure Oracle where
  imageOk : Nat → Bool
  audioOk : Bool
  videoOk : Bool
  imgUpload : Nat → Option String
  audUpload : Option String
  vidUpload : Option String

/-- Filesystem model: which directories and files exist. -/
structure FsState where
  dirs : List String
  files : List LocalPath
deriving DecidableEq, Repr

/-- Result of one orchestrator run. produced is the Python temp_files list;
imagePaths the image_paths list; the call counters record how often the
narration, video and upload collaborators were invoked. -/
structure RunResult where
  db : JobRecord
  fs : FsState
  produced : List LocalPath
  imagePaths : List LocalPath
  audioCalls : Nat
  videoCalls : Nat
  uploadCalls : Nat

/-- temp_stories/{story_id} (story.py line 275). -/
def workDirOf (storyId : String) : String :=
  "temp_stories/" ++ storyId

/-- temp_dir / scene_{idx}.png (story.py line 287). -/
def scenePathOf (workDir : String) (idx : Nat) : LocalPath :=
  ⟨workDir, "scene_" ++ toString idx ++ ".png"⟩

/-- The per-scene image loop (story.py lines 283-297): generate each scene
image in order; on success record the written file, on failure log and
continue with the next scene. -/
def imageLoop (o : Oracle) (workDir : String) : List String → Nat → List LocalPath
  | [], _ => []
  | _ :: rest, idx =>
    if o.imageOk idx then scenePathOf workDir idx :: imageLoop o workDir rest (idx + 1)
    else imageLoop o workDir rest (idx + 1)

/-- The finally block (story.py lines 428-443): os.remove every recorded temp
file, then shutil.rmtree the workspace directory. -/
def cleanup (workDir : String) (temps : List LocalPath) (fs : FsState) : FsState :=
  let afterTemps : FsState := ⟨fs.dirs, fs.files.filter (fun p => p ∉ temps)⟩
  ⟨afterTemps.dirs.filter (fun d => d ≠ workDir),
   afterTemps.files.filter (fun p => p.dir ≠ workDir)⟩

/-- Shallow embedding of _process_story_generation (story.py lines 252-443)
for a run started right after job creation (record status processing with
empty media fields). db is that record with the single terminal update
applied: the failed update sets only status and error; the completed update
persists whatever URLs the uploads produced. -/
def processStory (storyId text : String) (o : Oracle) (fs0 : FsState) : RunResult :=
  let scenes := splitScenesStr text 5
  let workDir := workDirOf storyId
  let fs1 : FsState := ⟨workDir :: fs0.dirs, fs0.files⟩
  let imagePaths := imageLoop o workDir scenes 1
  let fs2 : FsState := ⟨fs1.dirs, imagePaths ++ fs1.files⟩
  if imagePaths = [] then
    { db := { status := "failed", error := some "Failed to generate any images",
              image_urls := [], audio_url := none, video_url := none },
      fs := cleanup workDir imagePaths fs2,
      produced := imagePaths, imagePaths := imagePaths,
      audioCalls := 0, videoCalls := 0, uploadCalls := 0 }
  else
    let audioPath : LocalPath := ⟨workDir, "narration.mp3"⟩
    let hasAudio := o.audioOk
    let fs3 : FsState := if hasAudio then ⟨fs2.dirs, audioPath :: fs2.files⟩ else fs2
    let temps2 := if hasAudio then imagePaths ++ [audioPath] else imagePaths
    let videoPath : LocalPath := ⟨workDir, "story_video.mp4"⟩
    let videoCalls := if hasAudio then 1 else 0
    let hasVideo := hasAudio && o.videoOk
    let fs4 : FsState := if hasVideo then ⟨fs3.dirs, videoPath :: fs3.files⟩ else fs3
    let temps3 := if hasVideo then temps2 ++ [videoPath] else temps2
    let positions := (List.range imagePaths.length).map (fun i => i + 1)
    let imageUrls := positions.filterMap o.imgUpload
    let audioUrl := if hasAudio then o.audUpload else none
    let videoUrl := if hasVideo then o.vidUpload else none
    { db := { status := "completed", error := none, image_urls := imageUrls,
              audio_url := audioUrl, video_url := videoUrl },
      fs := cleanup workDir temps3 fs4,
      produced := temps3, imagePaths := imagePaths,
      audioCalls := 1, videoCalls := videoCalls,
      uploadCalls := imagePaths.length + (if hasAudio then 1 else 0) +
        (if hasVideo then 1 else 0) }

/-- Oracle of the C4 test scenario: scenes 2 and 4 fail permanently, scenes
1, 3, 5 succeed; narration, video and uploads all succeed. -/
def oracleOdd : Oracle :=
  { imageOk := fun i => i % 2 == 1,
    audioOk := true, videoOk := true,
    imgUpload := fun i => some ("https://img/" ++ toString i),
    audUpload := some "https://aud",
    vidUpload := some "https://vid" }

/-- Oracle where every scene image generation fails. -/
def oracleAllFail : Oracle :=
  { imageOk := fun _ => false,
    audioOk := true, videoOk := true,
    imgUpload := fun _ => none, audUpload := none, vidUpload := none }

/-- Oracle where images succeed but narration fails (C2 round-trip). -/
def oracleNoAudio : Oracle :=
  { imageOk := fun _ => true,
    audioOk := false, videoOk := true,
    imgUpload := fun i => some ("https://img/" ++ toString i),
    audUpload := some "https://aud",
    vidUpload := some "https://vid" }

/-! ### Image Stage retry policy (image_service.py, generate_image) -/

/-- Outcome of one provider attempt inside generate_image: success, an error
whose message mentions a rate limit, an invalid-prompt error, or any other
failure. -/
inductive ImgAttempt
  | ok
  | rateLimit
  | invalidPrompt
  | otherErr
deriving DecidableEq, Repr

/-- How generate_image finishes: a saved image, one of the raised exception
kinds, a prompt-validation ValueError, or the unreachable fall-through raise
at image_service.py line 122. -/
inductive ImgOutcome
  | success
  | errRateLimit
  | errInvalidPrompt
  | errOther
  | errEmptyPrompt
  | errLongPrompt
  | errUnreachable
deriving DecidableEq, Repr

/-- Trace of one generate_image call: how it ended, the time.sleep waits in
seconds between attempts, and how many attempts ran. -/
structure ImgRun where
  outcome : ImgOutcome
  sleeps : List Nat
  attempts : Nat
deriving DecidableEq, Repr

/-- The retry loop of generate_image (image_service.py lines 74-122),
max_retries = 3. attempt is the 0-based Python loop counter; left counts the
loop iterations still available after the current one, so the Python
condition attempt < max_retries - 1 is 0 < left. On a rate-limit error the
wait is (2 ^ attempt) * 2; on other errors 2 ^ attempt; an invalid-prompt
error raises immediately. -/
def genImageLoop (att : Nat → ImgAttempt) (attempt : Nat) :
    Nat → List Nat → ImgRun
  | 0, sleeps => ⟨.errUnreachable, sleeps, attempt⟩
  | left + 1, sleeps =>
    match att attempt with
    | .ok => ⟨.success, sleeps, attempt + 1⟩
    | .invalidPrompt => ⟨.errInvalidPrompt, sleeps, attempt + 1⟩
    | .rateLimit =>
      if 0 < left then genImageLoop att (attempt + 1) left (sleeps ++ [2 ^ attempt * 2])
      else ⟨.errRateLimit, sleeps, attempt + 1⟩
    | .otherErr =>
      if 0 < left then genImageLoop att (attempt + 1) left (sleeps ++ [2 ^ attempt])
      else ⟨.errOther, sleeps, attempt + 1⟩

/-- Shallow embedding of generate_image (image_service.py lines 38-122):
validate the prompt, then run the retry loop with max_retries = 3. -/
def generateImage (prompt : String) (att : Nat → ImgAttempt) : ImgRun :=
  if pyStrip prompt.toList = [] then ⟨.errEmptyPrompt, [], 0⟩
  else if 1000 < prompt.length then ⟨.errLongPrompt, [], 0⟩
  else genImageLoop att 0 3 []

/-- Provider stub that reports a rate limit on every attempt. -/
def attAllRateLimit : Nat → ImgAttempt := fun _ => ImgAttempt.rateLimit

/-! ### Video Assembly numerics (video_service.py), over exact rationals -/

/-- The duration arithmetic of create_video_from_images (video_service.py
lines 100-129): duration_per_image (line 105), the crossfade duration of
_create_video_with_transitions (line 333) on the transition branch, and the
fade duration of create_slideshow (line 285) on the slideshow branch. -/
structure AssemblyPlan where
  duration_per_image : ℚ
  transition : Option ℚ
  fade : Option ℚ
deriving DecidableEq, Repr

/-- The branch and duration computation of create_video_from_images. -/
def planVideo (audioDuration : ℚ) (numImages : Nat) (addTransitions : Bool) :
    AssemblyPlan :=
  let dpi := audioDuration / (numImages : ℚ)
  if addTransitions && decide (1 < numImages) then
    { duration_per_image := dpi, transition := some (min 1 (dpi / 3)), fade := none }
  else
    { duration_per_image := dpi, transition := none,
      fade := if 1 < numImages then some (min (1/2) (dpi / 4)) else none }

/-- The duration-reconciliation decision of add_audio_to_video
(video_service.py lines 186-198): with adjust_duration on, apply a setpts
speed factor video/audio when the durations differ by more than 0.5 s. -/
def speedAdjust (videoDuration audioDuration : ℚ) (adjustDuration : Bool) :
    Option ℚ :=
  if adjustDuration && decide ((1/2 : ℚ) < |videoDuration - audioDuration|) then
    some (videoDuration / audioDuration)
  else none

/-! ### Story CRUD ownership model (story.py, get/update/delete endpoints) -/

/-- The persisted story document as seen by the CRUD endpoints. -/
structure StoryDoc where
  user_id : String
  title : String
  text_prompt : String
  status : String
  image_urls : List String
  audio_url : Option String
  video_url : Option String
  cloudinary_ids : List String
deriving DecidableEq, Repr

/-- Body of a PUT story request (schemas.StoryUpdate). -/
structure StoryUpdate where
  title : Option String
  text_prompt : Option String
deriving DecidableEq, Repr

/-- The stores the endpoints touch: story documents, review documents
(review id, story id), and the queued background deletion / regeneration
tasks. -/
structure ApiState where
  stories : List (String × StoryDoc)
  reviews : List (String × String)
  cloudTasks : List (List String)
  storageTasks : List (List String)
  regenTasks : List String
deriving DecidableEq, Repr

/-- HTTP error outcomes relevant to the ownership claims. -/
inductive HErr
  | notFound
  | forbidden
deriving DecidableEq, Repr

/-- Firestore document fetch by story id. -/
def lookupStory (s : ApiState) (sid : String) : Option StoryDoc :=
  (s.stories.find? (fun kv => kv.1 == sid)).map Prod.snd

/-- GET /story/{story_id} (story.py lines 513-557): 404 when the document is
missing, then the _verify_story_ownership 403 check, else the document. -/
def getStory (s : ApiState) (uid sid : String) : Except HErr StoryDoc × ApiState :=
  match lookupStory s sid with
  | none => (Except.error HErr.notFound, s)
  | some d =>
    if d.user_id ≠ uid then (Except.error HErr.forbidden, s)
    else (Except.ok d, s)

/-- PUT /story/{story_id} (story.py lines 560-646): 404, then 403, then
apply the update; a changed text_prompt queues deletion of the old media and
a background regeneration and sets status processing. -/
def updateStory (s : ApiState) (uid sid : String) (upd : StoryUpdate) :
    Except HErr StoryDoc × ApiState :=
  match lookupStory s sid with
  | none => (Except.error HErr.notFound, s)
  | some d =>
    if d.user_id ≠ uid then (Except.error HErr.forbidden, s)
    else
      let d1 := match upd.title with
        | some t => { d with title := t }
        | none => d
      match upd.text_prompt with
      | some tp =>
        let oldFiles := d.image_urls ++
          (match d.audio_url with | some a => [a] | none => []) ++
          (match d.video_url with | some v => [v] | none => [])
        let s1 := if oldFiles ≠ [] then
            { s with storageTasks := s.storageTasks ++ [oldFiles] }
          else s
        let d2 := { d1 with text_prompt := tp, status := "processing" }
        (Except.ok d2,
          { s1 with
            stories := s1.stories.map (fun kv => if kv.1 = sid then (kv.1, d2) else kv),
            regenTasks := s1.regenTasks ++ [sid] })
      | none =>
        (Except.ok d1,
          { s with stories := s.stories.map (fun kv => if kv.1 = sid then (kv.1, d1) else kv) })

/-- DELETE /story/{story_id} (story.py lines 649-714): 404, then 403, then
queue Cloudinary deletion of the stored ids, delete the reviews of the
story, and delete the document. -/
def deleteStory (s : ApiState) (uid sid : String) : Except HErr String × ApiState :=
  match lookupStory s sid with
  | none => (Except.error HErr.notFound, s)
  | some d =>
    if d.user_id ≠ uid then (Except.error HErr.forbidden, s)
    else
      let s1 := if d.cloudinary_ids ≠ [] then
          { s with cloudTasks := s.cloudTasks ++ [d.cloudinary_ids] }
        else s
      let s2 := { s1 with reviews := s1.reviews.filter (fun rv => rv.2 ≠ sid) }
      (Except.ok sid, { s2 with stories := s2.stories.filter (fun kv => kv.1 ≠ sid) })

/-- A two-user state for the ownership witnesses: alice owns story s1, which
has one review and published media. -/
def demoState : ApiState :=
  { stories := [("s1",
      { user_id := "alice", title := "T", text_prompt := "P", status := "completed",
        image_urls := ["https://img/1"], audio_url := some "https://aud",
        video_url := none, cloudinary_ids := ["cid1"] })],
    reviews := [("r1", "s1")],
    cloudTasks := [], storageTasks := [], regenTasks := [] }

/-! ### Helper lemmas -/

theorem isTerm_not_ws {c : Char} (h : isTerm c = true) : isPyWs c = false := by
  simp only [isTerm, Bool.or_eq_true, decide_eq_true_eq] at h
  rcases h with (h | h) | h <;> subst h <;> rfl

theorem headIsWs_append {l r : List Char} (h : l ≠ []) :
    headIsWs (l ++ r) = headIsWs l := by
  cases l with
  | nil => exact absurd rfl h
  | cons c t => rfl

theorem headIsWs_dropWhile (l : List Char) :
    headIsWs (l.dropWhile isPyWs) = false := by
  induction l with
  | nil => rfl
  | cons c t ih =>
    by_cases h : isPyWs c = true
    · rw [List.dropWhile_cons_of_pos h]; exact ih
    · rw [List.dropWhile_cons_of_neg h]
      simpa [headIsWs] using h

theorem dropWhile_eq_self_of_head {l : List Char} (h : headIsWs l = false) :
    l.dropWhile isPyWs = l := by
  cases l with
  | nil => rfl
  | cons c t =>
    have : isPyWs c = false := h
    simp [List.dropWhile_cons, this]

/-- pyStrip expressed through Mathlib's rdropWhile. -/
theorem pyStrip_eq_rdropWhile (s : List Char) :
    pyStrip s = List.rdropWhile isPyWs (s.dropWhile isPyWs) := rfl

theorem pyStrip_sublist (s : List Char) : List.Sublist (pyStrip s) s := by
  rw [pyStrip_eq_rdropWhile]
  exact ((List.rdropWhile_prefix isPyWs _).sublist).trans (List.dropWhile_sublist isPyWs)

theorem pyStrip_head (s : List Char) : headIsWs (pyStrip s) = false := by
  rw [pyStrip_eq_rdropWhile]
  rcases h : List.rdropWhile isPyWs (s.dropWhile isPyWs) with _ | ⟨c, t⟩
  · rfl
  · obtain ⟨u, hu⟩ := List.rdropWhile_prefix isPyWs (s.dropWhile isPyWs)
    rw [h] at hu
    have h2 := headIsWs_dropWhile (l := s)
    rw [← hu, headIsWs_append (by simp)] at h2
    exact h2

theorem pyStrip_last (s : List Char) : headIsWs (pyStrip s).reverse = false := by
  have : (pyStrip s).reverse = (s.dropWhile isPyWs).reverse.dropWhile isPyWs := by
    simp [pyStrip]
  rw [this]
  exact headIsWs_dropWhile _

theorem pyStrip_eq_self {p : List Char}
    (h1 : headIsWs p = false) (h2 : headIsWs p.reverse = false) :
    pyStrip p = p := by
  unfold pyStrip
  rw [dropWhile_eq_self_of_head h1, dropWhile_eq_self_of_head h2, List.reverse_reverse]

theorem goodPiece_pyStrip {s : List Char} (h : pyStrip s ≠ []) :
    goodPiece (pyStrip s) :=
  ⟨h, pyStrip_head s, pyStrip_last s⟩

theorem goodPiece.trimmed {p : List Char} (h : goodPiece p) : pyStrip p = p :=
  pyStrip_eq_self h.2.1 h.2.2

theorem nws_sublist {l r : List Char} (h : List.Sublist l r) :
    List.Sublist (nws l) (nws r) :=
  h.filter _

theorem nws_append (l r : List Char) : nws (l ++ r) = nws l ++ nws r := by
  simp [nws]

/-! ### joinSpace lemmas -/

theorem joinSpace_ne_nil {x : List Char} {l : List (List Char)} (hx : x ≠ []) :
    joinSpace (x :: l) ≠ [] := by
  cases l with
  | nil => simpa [joinSpace] using hx
  | cons y t => simp [joinSpace]

theorem joinSpace_good {l : List (List Char)} (hne : l ≠ [])
    (h : ∀ p ∈ l, goodPiece p) : goodPiece (joinSpace l) := by
  induction l with
  | nil => exact absurd rfl hne
  | cons x t ih =>
    have hx := h x (by simp)
    cases t with
    | nil => simpa [joinSpace] using hx
    | cons y u =>
      have hrec : goodPiece (joinSpace (y :: u)) :=
        ih (by simp) (fun p hp => h p (by simp [hp]))
      refine ⟨?_, ?_, ?_⟩
      · exact joinSpace_ne_nil hx.1
      · show headIsWs (x ++ ' ' :: joinSpace (y :: u)) = false
        rw [headIsWs_append hx.1]; exact hx.2.1
      · show headIsWs (x ++ ' ' :: joinSpace (y :: u)).reverse = false
        rw [List.reverse_append]
        have hj := hrec.1
        have : (' ' :: joinSpace (y :: u)).reverse =
            (joinSpace (y :: u)).reverse ++ [' '] := by simp
        rw [this, List.append_assoc, headIsWs_append (by simpa using hj)]
        exact hrec.2.2

theorem headIsWs_cons (c : Char) (l : List Char) : headIsWs (c :: l) = isPyWs c := rfl

theorem flatten_sublist {l₁ l₂ : List (List Char)} (h : List.Sublist l₁ l₂) :
    List.Sublist l₁.flatten l₂.flatten := by
  induction h with
  | slnil => exact List.Sublist.refl _
  | cons a h ih => exact List.sublist_append_of_sublist_right ih
  | cons₂ a h ih => exact (List.append_sublist_append_left a).mpr ih

theorem flatten_map_pyStrip_sublist (L : List (List Char)) :
    List.Sublist (L.map pyStrip).flatten L.flatten := by
  induction L with
  | nil => simp
  | cons x t ih => simpa using (pyStrip_sublist x).append ih

theorem nws_joinSpace (l : List (List Char)) :
    nws (joinSpace l) = nws l.flatten := by
  induction l with
  | nil => rfl
  | cons x t ih =>
    cases t with
    | nil => simp [joinSpace]
    | cons y u =>
      show nws (x ++ ' ' :: joinSpace (y :: u)) = nws (x :: y :: u).flatten
      rw [nws_append]
      have : nws (' ' :: joinSpace (y :: u)) = nws (joinSpace (y :: u)) := by
        simp [nws, isPyWs]
      rw [this, ih]
      simp [nws_append]

/-! ### splitNN lemmas -/

theorem splitNN_flatten_sublist (acc s : List Char) :
    List.Sublist (splitNN acc s).flatten (acc.reverse ++ s) := by
  induction acc, s using splitNN.induct with
  | case1 acc c d rest hnl ih =>
    simp only [splitNN, hnl, if_pos, List.flatten_cons]
    refine (List.append_sublist_append_left _).mpr ?_
    have h1 : List.Sublist (splitNN [] rest).flatten rest := by simpa using ih
    exact h1.trans ((List.sublist_cons_self _ _).trans (List.sublist_cons_self _ _))
  | case2 acc c d rest hnl ih =>
    simp only [splitNN, hnl, if_neg]
    have h2 : (c :: acc).reverse ++ (d :: rest) = acc.reverse ++ (c :: d :: rest) := by
      simp
    rw [← h2]
    exact ih
  | case3 acc c =>
    simp [splitNN]
  | case4 acc =>
    simp [splitNN]

/-! ### sentGo lemmas -/

theorem sentGo_ne_nil (sk : Bool) (acc s : List Char) : sentGo sk acc s ≠ [] := by
  induction sk, acc, s using sentGo.induct with
  | case1 sk acc => simp [sentGo]
  | case2 sk acc c rest hcond ih =>
    rw [sentGo, if_pos hcond]
    exact ih
  | case3 sk acc c rest hcond1 hcond2 ih =>
    rw [sentGo, if_neg hcond1, if_pos hcond2]
    simp
  | case4 sk acc c rest hcond1 hcond2 ih =>
    rw [sentGo, if_neg hcond1, if_neg hcond2]
    exact ih

theorem sentGo_pieces (sk : Bool) (acc s : List Char) :
    (s ≠ [] → headIsWs s.reverse = false) →
    (s = [] → acc ≠ [] ∧ headIsWs acc = false) →
    (acc ≠ [] → headIsWs acc.reverse = false) →
    (acc = [] → sk = false → s ≠ [] → headIsWs s = false) →
    ∀ p ∈ sentGo sk acc s, goodPiece p := by
  induction sk, acc, s using sentGo.induct with
  | case1 sk acc =>
    intro _ h2 h3 _ p hp
    obtain ⟨hacc, hhead⟩ := h2 rfl
    simp only [sentGo, List.mem_singleton] at hp
    subst hp
    exact ⟨by simpa using hacc, h3 hacc, by simpa using hhead⟩
  | case2 sk acc c rest hcond ih =>
    intro h1 _ h3 _
    obtain ⟨hsk, hws⟩ := Bool.and_eq_true_iff.mp hcond
    rw [sentGo, if_pos hcond]
    refine ih ?_ ?_ h3 ?_
    · intro hr
      have h := h1 (by simp)
      rw [List.reverse_cons, headIsWs_append (by simpa using hr)] at h
      exact h
    · intro hr
      subst hr
      have h := h1 (by simp)
      simp [headIsWs_cons, hws] at h
    · intro _ hsk'
      exact absurd hsk' (by simp)
  | case3 sk acc c rest hcond1 hcond2 ih =>
    intro h1 _ h3 _
    obtain ⟨hterm, hrestws⟩ := Bool.and_eq_true_iff.mp hcond2
    have hrest : rest ≠ [] := by
      intro he; rw [he] at hrestws; exact absurd hrestws (by simp [headIsWs])
    rw [sentGo, if_neg hcond1, if_pos hcond2]
    intro p hp
    rcases List.mem_cons.mp hp with hpe | hpm
    · subst hpe
      refine ⟨by simp, ?_, ?_⟩
      · rw [List.reverse_cons]
        by_cases hacc : acc = []
        · subst hacc
          simpa [headIsWs_cons] using isTerm_not_ws hterm
        · rw [headIsWs_append (by simpa using hacc)]
          exact h3 hacc
      · rw [List.reverse_reverse, headIsWs_cons]
        exact isTerm_not_ws hterm
    · refine ih ?_ ?_ ?_ ?_ p hpm
      · intro hr
        have h := h1 (by simp)
        rw [List.reverse_cons, headIsWs_append (by simpa using hr)] at h
        exact h
      · intro hr; exact absurd hr hrest
      · intro h; exact absurd rfl h
      · intro _ hsk'; exact absurd hsk' (by simp)
  | case4 sk acc c rest hcond1 hcond2 ih =>
    intro h1 _ h3 h4
    rw [sentGo, if_neg hcond1, if_neg hcond2]
    refine ih ?_ ?_ ?_ ?_
    · intro hr
      have h := h1 (by simp)
      rw [List.reverse_cons, headIsWs_append (by simpa using hr)] at h
      exact h
    · intro hr
      subst hr
      have h := h1 (by simp)
      simp only [List.reverse_cons, List.reverse_nil, List.nil_append] at h
      exact ⟨by simp, by simpa [headIsWs_cons] using h⟩
    · intro _
      rw [List.reverse_cons]
      by_cases hacc : acc = []
      · subst hacc
        simp only [List.reverse_nil, List.nil_append, headIsWs_cons]
        cases hsk : sk with
        | true =>
          rw [hsk] at hcond1
          simpa using hcond1
        | false =>
          have h := h4 rfl hsk (by simp)
          simpa [headIsWs_cons] using h
      · rw [headIsWs_append (by simpa using hacc)]
        exact h3 hacc
    · intro hne
      exact absurd hne (by simp)



theorem sentGo_flatten_sublist (sk : Bool) (acc s : List Char) :
    List.Sublist (sentGo sk acc s).flatten (acc.reverse ++ s) := by
  induction sk, acc, s using sentGo.induct with
  | case1 sk acc => simp [sentGo]
  | case2 sk acc c rest hcond ih =>
    rw [sentGo, if_pos hcond]
    exact ih.trans ((List.append_sublist_append_left _).mpr
      (List.sublist_cons_self _ _))
  | case3 sk acc c rest hcond1 hcond2 ih =>
    rw [sentGo, if_neg hcond1, if_pos hcond2]
    have hrw : acc.reverse ++ (c :: rest) = ((c :: acc).reverse) ++ rest := by simp
    rw [hrw, List.flatten_cons]
    exact (List.append_sublist_append_left _).mpr (by simpa using ih)
  | case4 sk acc c rest hcond1 hcond2 ih =>
    rw [sentGo, if_neg hcond1, if_neg hcond2]
    have hrw : acc.reverse ++ (c :: rest) = ((c :: acc).reverse) ++ rest := by simp
    rw [hrw]
    exact ih

/-- All pieces of sentSplit over a non-empty trimmed string are non-empty and
trimmed. -/
theorem sentSplit_good {t : List Char} (ht : t ≠ [])
    (hh : headIsWs t = false) (hl : headIsWs t.reverse = false) :
    ∀ p ∈ sentSplit t, goodPiece p := by
  refine sentGo_pieces false [] t (fun _ => hl) (fun he => absurd he ht) ?_ ?_
  · intro h; exact absurd rfl h
  · intro _ _ _; exact hh

theorem sentSplit_flatten_sublist (t : List Char) :
    List.Sublist (sentSplit t).flatten t := by
  simpa using sentGo_flatten_sublist false [] t

/-! ### chunkJoin lemmas -/

theorem chunkJoin_cons {x : List Char} (cpred : Nat) (xs : List (List Char))
    (hx : x ≠ []) :
    chunkJoin cpred (x :: xs) =
      joinSpace ((x :: xs).take (cpred + 1)) :: chunkJoin cpred (xs.drop cpred) := by
  rw [chunkJoin]
  rw [if_neg]
  rw [List.take_succ_cons]
  exact joinSpace_ne_nil hx

theorem chunkJoin_good (cpred : Nat) (xs : List (List Char)) :
    (∀ p ∈ xs, goodPiece p) → ∀ q ∈ chunkJoin cpred xs, goodPiece q := by
  refine chunkJoin.induct cpred
    (fun l => (∀ p ∈ l, goodPiece p) → ∀ q ∈ chunkJoin cpred l, goodPiece q)
    ?_ ?_ ?_ xs
  · intro _ q hq; simp [chunkJoin] at hq
  · intro x xs scene hsc ih h q hq
    have hsc2 : joinSpace ((x :: xs).take (cpred + 1)) = [] := hsc
    rw [chunkJoin, if_pos hsc2] at hq
    exact ih (fun p hp => h p (List.mem_cons_of_mem x (List.mem_of_mem_drop hp))) q hq
  · intro x xs scene hsc ih h q hq
    have hsc2 : ¬joinSpace ((x :: xs).take (cpred + 1)) = [] := hsc
    rw [chunkJoin, if_neg hsc2] at hq
    rcases List.mem_cons.mp hq with hqe | hqm
    · subst hqe
      refine joinSpace_good ?_ ?_
      · rw [List.take_succ_cons]; simp
      · intro p hp
        exact h p (List.mem_of_mem_take hp)
    · exact ih (fun p hp => h p (List.mem_cons_of_mem x (List.mem_of_mem_drop hp))) q hqm

theorem chunkJoin_length (cpred : Nat) (xs : List (List Char)) :
    (∀ p ∈ xs, p ≠ []) → xs.length ≤ (cpred + 1) * (chunkJoin cpred xs).length := by
  refine chunkJoin.induct cpred
    (fun l => (∀ p ∈ l, p ≠ []) → l.length ≤ (cpred + 1) * (chunkJoin cpred l).length)
    ?_ ?_ ?_ xs
  · intro _; simp [chunkJoin]
  · intro x xs scene hsc ih h
    exfalso
    have hsc2 : joinSpace ((x :: xs).take (cpred + 1)) = [] := hsc
    rw [List.take_succ_cons] at hsc2
    exact joinSpace_ne_nil (h x (by simp)) hsc2
  · intro x xs scene hsc ih h
    have hsc2 : ¬joinSpace ((x :: xs).take (cpred + 1)) = [] := hsc
    rw [chunkJoin, if_neg hsc2]
    have hd := ih (fun p hp => h p (List.mem_cons_of_mem x (List.mem_of_mem_drop hp)))
    rw [List.length_drop] at hd
    rw [List.length_cons, List.length_cons, Nat.mul_succ]
    omega

theorem chunkJoin_nws (cpred : Nat) (xs : List (List Char)) :
    List.Sublist (nws (chunkJoin cpred xs).flatten) (nws xs.flatten) := by
  refine chunkJoin.induct cpred
    (fun l => List.Sublist (nws (chunkJoin cpred l).flatten) (nws l.flatten))
    ?_ ?_ ?_ xs
  · simp [chunkJoin, nws]
  · intro x xs scene hsc ih
    have hsc2 : joinSpace ((x :: xs).take (cpred + 1)) = [] := hsc
    rw [chunkJoin, if_pos hsc2]
    refine ih.trans (nws_sublist (flatten_sublist ?_))
    exact (List.drop_sublist cpred xs).trans (List.sublist_cons_self x xs)
  · intro x xs scene hsc ih
    have hsc2 : ¬joinSpace ((x :: xs).take (cpred + 1)) = [] := hsc
    rw [chunkJoin, if_neg hsc2, List.flatten_cons, nws_append, nws_joinSpace]
    have hsplit : x :: xs = (x :: xs).take (cpred + 1) ++ (xs.drop cpred) := by
      have h := List.take_append_drop (cpred + 1) (x :: xs)
      exact h.symm
    have h1 : List.Sublist
        (nws ((x :: xs).take (cpred + 1)).flatten ++ nws (chunkJoin cpred (xs.drop cpred)).flatten)
        (nws ((x :: xs).take (cpred + 1)).flatten ++ nws (xs.drop cpred).flatten) :=
      (List.append_sublist_append_left _).mpr ih
    have h2 : nws ((x :: xs).take (cpred + 1)).flatten ++ nws (xs.drop cpred).flatten =
        nws (x :: xs).flatten := by
      conv_rhs => rw [hsplit]
      rw [List.flatten_append, nws_append]
    rw [← h2]
    exact h1
theorem chunkJoin_getElem (cpred : Nat) :
    ∀ (k : Nat) (xs : List (List Char)), (∀ p ∈ xs, p ≠ []) →
      k * (cpred + 1) < xs.length →
      (chunkJoin cpred xs)[k]? =
        some (joinSpace ((xs.drop (k * (cpred + 1))).take (cpred + 1))) := by
  intro k
  induction k with
  | zero =>
    intro xs h hlt
    cases xs with
    | nil => simp at hlt
    | cons x xs =>
      rw [chunkJoin_cons cpred xs (h x (by simp))]
      simp
  | succ k ih =>
    intro xs h hlt
    cases xs with
    | nil => simp at hlt
    | cons x xs =>
      rw [chunkJoin_cons cpred xs (h x (by simp)), List.getElem?_cons_succ]
      have hb : k * (cpred + 1) < (xs.drop cpred).length := by
        rw [List.length_drop]
        have he : (k + 1) * (cpred + 1) = k * (cpred + 1) + (cpred + 1) :=
          Nat.succ_mul k (cpred + 1)
        rw [List.length_cons, he] at hlt
        omega
      rw [ih (xs.drop cpred) (fun p hp => h p (List.mem_cons_of_mem x (List.mem_of_mem_drop hp))) hb]
      have hdrop : (xs.drop cpred).drop (k * (cpred + 1)) =
          (x :: xs).drop ((k + 1) * (cpred + 1)) := by
        rw [List.drop_drop]
        have he : (k + 1) * (cpred + 1) = (cpred + k * (cpred + 1)) + 1 := by
          rw [Nat.succ_mul]
          omega
        rw [he, List.drop_succ_cons]
      rw [hdrop]

/-! ### Claim C5: the three first-match segmentation rules -/

/-- C5: segment(text, max_scenes) applies first-match rules: (1) return the
trimmed non-empty blank-line paragraphs verbatim when their count is in
[2, max_scenes]; (2) otherwise return the sentence split when it has at most
max_scenes elements; (3) otherwise group sentences into chunks of
floor(sentence_count / max_scenes) sentences joined by single spaces and
truncate to exactly max_scenes entries, dropping trailing remainder
sentences; six one-word sentences with max_scenes = 3 yield exactly 3 chunks
of 2 sentences each, and a seventh sentence is silently dropped. -/
theorem segmenterRulesC5 :
    (∀ (text : List Char) (maxScenes : Nat), 1 ≤ maxScenes →
      ((2 ≤ (segParagraphs text).length ∧ (segParagraphs text).length ≤ maxScenes) →
        splitTextIntoScenes text maxScenes = segParagraphs text) ∧
      (¬(2 ≤ (segParagraphs text).length ∧ (segParagraphs text).length ≤ maxScenes) →
        (segSentences text).length ≤ maxScenes →
        splitTextIntoScenes text maxScenes = segSentences text) ∧
      (¬(2 ≤ (segParagraphs text).length ∧ (segParagraphs text).length ≤ maxScenes) →
        maxScenes < (segSentences text).length →
        (splitTextIntoScenes text maxScenes).length = maxScenes ∧
        ∀ k, k < maxScenes →
          (splitTextIntoScenes text maxScenes)[k]? =
            some (joinSpace (((segSentences text).drop
              (k * ((segSentences text).length / maxScenes))).take
              ((segSentences text).length / maxScenes))))) ∧
    splitScenesStr "A. B. C. D. E. F." 3 = ["A. B.", "C. D.", "E. F."] ∧
    splitScenesStr "A. B. C. D. E. F. G." 3 = ["A. B.", "C. D.", "E. F."] := by
  refine ⟨?_, ?_, ?_⟩
  · intro text maxScenes hm
    refine ⟨?_, ?_, ?_⟩
    · intro hc
      simp only [splitTextIntoScenes]
      rw [if_pos hc]
    · intro hc1 hc2
      simp only [splitTextIntoScenes]
      rw [if_neg hc1, if_pos hc2]
    · intro hc1 hc2
      have hstrip : pyStrip text ≠ [] := by
        intro he
        have hse : segSentences text = [[]] := by rw [segSentences, he]; rfl
        rw [hse] at hc2
        simp at hc2
        omega
      have hgood : ∀ p ∈ segSentences text, goodPiece p :=
        sentSplit_good hstrip (pyStrip_head text) (pyStrip_last text)
      have hne : ∀ p ∈ segSentences text, p ≠ [] := fun p hp => (hgood p hp).1
      have hchunk1 : 1 ≤ (segSentences text).length / maxScenes :=
        (Nat.one_le_div_iff (by omega)).mpr (by omega)
      have hc0 : (segSentences text).length / maxScenes - 1 + 1 =
          (segSentences text).length / maxScenes := by omega
      have hcl := chunkJoin_length ((segSentences text).length / maxScenes - 1)
        (segSentences text) hne
      rw [hc0] at hcl
      have hmul : maxScenes * ((segSentences text).length / maxScenes) ≤
          (segSentences text).length := by
        rw [Nat.mul_comm]
        exact Nat.div_mul_le_self _ _
      have hLcj : maxScenes ≤
          (chunkJoin ((segSentences text).length / maxScenes - 1) (segSentences text)).length := by
        refine Nat.le_of_mul_le_mul_left ?_ (show 0 < (segSentences text).length / maxScenes by omega)
        calc (segSentences text).length / maxScenes * maxScenes
            ≤ (segSentences text).length := Nat.div_mul_le_self _ _
          _ ≤ (segSentences text).length / maxScenes *
              (chunkJoin ((segSentences text).length / maxScenes - 1) (segSentences text)).length := hcl
      have heq : splitTextIntoScenes text maxScenes =
          (chunkJoin ((segSentences text).length / maxScenes - 1) (segSentences text)).take
            maxScenes := by
        simp only [splitTextIntoScenes]
        rw [if_neg hc1, if_neg (by omega)]
      refine ⟨?_, ?_⟩
      · rw [heq, List.length_take]
        omega
      · intro k hk
        rw [heq, List.getElem?_take_of_lt hk]
        have hb : k * ((segSentences text).length / maxScenes - 1 + 1) <
            (segSentences text).length := by
          rw [hc0]
          have h1 : k * ((segSentences text).length / maxScenes) ≤
              (maxScenes - 1) * ((segSentences text).length / maxScenes) :=
            Nat.mul_le_mul_right _ (by omega)
          have h2 : (maxScenes - 1) * ((segSentences text).length / maxScenes) + 1 *
              ((segSentences text).length / maxScenes) =
              maxScenes * ((segSentences text).length / maxScenes) := by
            rw [← Nat.add_mul]
            congr 1
            omega
          omega
        have hg := chunkJoin_getElem ((segSentences text).length / maxScenes - 1) k
          (segSentences text) hne hb
        rw [hc0] at hg
        exact hg
  · simp [splitScenesStr, splitTextIntoScenes, segParagraphs, segSentences, splitNN,
      pyStrip, sentSplit, sentGo, chunkJoin, joinSpace, isPyWs, isTerm, headIsWs]
  · simp [splitScenesStr, splitTextIntoScenes, segParagraphs, segSentences, splitNN,
      pyStrip, sentSplit, sentGo, chunkJoin, joinSpace, isPyWs, isTerm, headIsWs]

/-- Witness for C5: the rules applied at concrete inputs. -/
theorem segmenterRulesC5_witness :
    splitTextIntoScenes ("Para1\n\nPara2".toList) 5 = segParagraphs ("Para1\n\nPara2".toList) ∧
    splitTextIntoScenes ("A. B. C.".toList) 5 = segSentences ("A. B. C.".toList) := by
  constructor
  · exact (segmenterRulesC5.1 ("Para1\n\nPara2".toList) 5 (by norm_num)).1 (by decide)
  · exact (segmenterRulesC5.1 ("A. B. C.".toList) 5 (by norm_num)).2.1 (by decide) (by decide)

/-! ### Claim C6: totality and shape of the segmenter output -/

/-- C6 counterexample: on input that is empty after trimming the segmenter
does not signal any error; it returns normally with a one-element list
containing the empty string (the sentence rule fires on the single empty
piece produced by re.split on the empty string). -/
theorem segmenterTotalC6_cex :
    splitScenesStr "" 5 = [""] ∧ splitScenesStr "   " 5 = [""] := by
  constructor <;> decide

/-- C6 (amended): segment is pure and deterministic; on input that is empty
after trimming it returns the one-element list containing the empty string
(no InvalidInputError exists in the code); for every input that is non-empty
after trimming it returns 1 to max_scenes non-empty trimmed strings, and the
non-whitespace characters of the output occur as an in-order subsequence of
the input, so concatenation order matches the input order. -/
theorem segmenterTotalC6 (text : List Char) (maxScenes : Nat)
    (hm : 1 ≤ maxScenes) (ht : pyStrip text ≠ []) :
    1 ≤ (splitTextIntoScenes text maxScenes).length ∧
    (splitTextIntoScenes text maxScenes).length ≤ maxScenes ∧
    (∀ p ∈ splitTextIntoScenes text maxScenes, p ≠ [] ∧ pyStrip p = p) ∧
    List.Sublist (nws (splitTextIntoScenes text maxScenes).flatten) (nws text) := by
  by_cases hc1 : 2 ≤ (segParagraphs text).length ∧ (segParagraphs text).length ≤ maxScenes
  · have heq : splitTextIntoScenes text maxScenes = segParagraphs text := by
      simp only [splitTextIntoScenes]
      rw [if_pos hc1]
    rw [heq]
    refine ⟨by omega, hc1.2, ?_, ?_⟩
    · intro p hp
      rw [segParagraphs] at hp
      obtain ⟨hpm, hpne⟩ := List.mem_filter.mp hp
      have hpne2 : p ≠ [] := by simpa using hpne
      obtain ⟨q, hq, hpq⟩ := List.mem_map.mp hpm
      subst hpq
      exact ⟨hpne2, (goodPiece_pyStrip hpne2).trimmed⟩
    · have s1 : List.Sublist (segParagraphs text) ((splitNN [] text).map pyStrip) :=
        List.filter_sublist _
      have s2 := flatten_sublist s1
      have s3 := flatten_map_pyStrip_sublist (splitNN [] text)
      have s4 : List.Sublist (splitNN [] text).flatten text := by
        simpa using splitNN_flatten_sublist [] text
      exact nws_sublist ((s2.trans s3).trans s4)
  · have hgood : ∀ p ∈ segSentences text, goodPiece p :=
      sentSplit_good ht (pyStrip_head text) (pyStrip_last text)
    have hsub : List.Sublist (segSentences text).flatten text :=
      (sentSplit_flatten_sublist (pyStrip text)).trans (pyStrip_sublist text)
    by_cases hc2 : (segSentences text).length ≤ maxScenes
    · have heq : splitTextIntoScenes text maxScenes = segSentences text := by
        simp only [splitTextIntoScenes]
        rw [if_neg hc1, if_pos hc2]
      rw [heq]
      have hlen1 : segSentences text ≠ [] := sentGo_ne_nil false [] (pyStrip text)
      refine ⟨?_, hc2, ?_, ?_⟩
      · have h := List.length_pos.mpr hlen1
        omega
      · intro p hp
        have hg := hgood p hp
        exact ⟨hg.1, hg.trimmed⟩
      · exact nws_sublist hsub
    · have hne : ∀ p ∈ segSentences text, p ≠ [] := fun p hp => (hgood p hp).1
      have hchunk1 : 1 ≤ (segSentences text).length / maxScenes :=
        (Nat.one_le_div_iff (by omega)).mpr (by omega)
      have hc0 : (segSentences text).length / maxScenes - 1 + 1 =
          (segSentences text).length / maxScenes := by omega
      have hcl := chunkJoin_length ((segSentences text).length / maxScenes - 1)
        (segSentences text) hne
      rw [hc0] at hcl
      have hLcj : maxScenes ≤
          (chunkJoin ((segSentences text).length / maxScenes - 1)
            (segSentences text)).length := by
        refine Nat.le_of_mul_le_mul_left ?_
          (show 0 < (segSentences text).length / maxScenes by omega)
        calc (segSentences text).length / maxScenes * maxScenes
            ≤ (segSentences text).length := Nat.div_mul_le_self _ _
          _ ≤ (segSentences text).length / maxScenes *
              (chunkJoin ((segSentences text).length / maxScenes - 1)
                (segSentences text)).length := hcl
      have heq : splitTextIntoScenes text maxScenes =
          (chunkJoin ((segSentences text).length / maxScenes - 1)
            (segSentences text)).take maxScenes := by
        simp only [splitTextIntoScenes]
        rw [if_neg hc1, if_neg hc2]
      rw [heq]
      refine ⟨?_, ?_, ?_, ?_⟩
      · rw [List.length_take]
        omega
      · rw [List.length_take]
        omega
      · intro p hp
        have hg := chunkJoin_good ((segSentences text).length / maxScenes - 1)
          (segSentences text) hgood p (List.mem_of_mem_take hp)
        exact ⟨hg.1, hg.trimmed⟩
      · have t1 : List.Sublist
            (nws ((chunkJoin ((segSentences text).length / maxScenes - 1)
              (segSentences text)).take maxScenes).flatten)
            (nws (chunkJoin ((segSentences text).length / maxScenes - 1)
              (segSentences text)).flatten) :=
          nws_sublist (flatten_sublist (List.take_sublist _ _))
        have t2 := chunkJoin_nws ((segSentences text).length / maxScenes - 1)
          (segSentences text)
        exact (t1.trans t2).trans (nws_sublist hsub)

/-- Witness for C6 at a concrete non-empty input. -/
theorem segmenterTotalC6_witness :
    1 ≤ (splitTextIntoScenes ("Hello there. How are you?".toList) 5).length ∧
    (splitTextIntoScenes ("Hello there. How are you?".toList) 5).length ≤ 5 ∧
    (∀ p ∈ splitTextIntoScenes ("Hello there. How are you?".toList) 5,
      p ≠ [] ∧ pyStrip p = p) ∧
    List.Sublist (nws (splitTextIntoScenes ("Hello there. How are you?".toList) 5).flatten)
      (nws ("Hello there. How are you?".toList)) :=
  segmenterTotalC6 ("Hello there. How are you?".toList) 5 (by norm_num) (by decide)

/-! ### Orchestrator lemmas -/

theorem imageLoop_all_false {o : Oracle} (w : String)
    (h : ∀ i, o.imageOk i = false) :
    ∀ (scenes : List String) (k : Nat), imageLoop o w scenes k = [] := by
  intro scenes
  induction scenes with
  | nil => intro k; rfl
  | cons s rest ih =>
    intro k
    rw [imageLoop, if_neg (by simp [h k])]
    exact ih (k + 1)

theorem imageLoop_eq_filter (o : Oracle) (w : String) :
    ∀ (scenes : List String) (k : Nat),
      imageLoop o w scenes k =
        (((List.range scenes.length).map (fun i => i + k)).filter
          (fun i => o.imageOk i)).map (scenePathOf w) := by
  intro scenes
  induction scenes with
  | nil => intro k; rfl
  | cons s rest ih =>
    intro k
    have hf : ((List.range rest.length).map Nat.succ).map (fun i => i + k) =
        (List.range rest.length).map (fun i => i + (k + 1)) := by
      rw [List.map_map]
      apply List.map_congr_left
      intro i _
      simp only [Function.comp_apply]
      omega
    rw [imageLoop, List.length_cons, List.range_succ_eq_map, List.map_cons, hf,
      Nat.zero_add]
    by_cases hk : o.imageOk k = true
    · rw [if_pos hk, List.filter_cons_of_pos (by simpa using hk), List.map_cons,
        ih (k + 1)]
    · rw [if_neg hk, List.filter_cons_of_neg (by simpa using hk), ih (k + 1)]

theorem imageLoop_dir {o : Oracle} {w : String} :
    ∀ {scenes : List String} {k : Nat} {p : LocalPath},
      p ∈ imageLoop o w scenes k → p.dir = w := by
  intro scenes
  induction scenes with
  | nil => intro k p hp; simp [imageLoop] at hp
  | cons s rest ih =>
    intro k p hp
    rw [imageLoop] at hp
    by_cases hk : o.imageOk k = true
    · rw [if_pos hk] at hp
      rcases List.mem_cons.mp hp with hpe | hpm
      · rw [hpe]; rfl
      · exact ih hpm
    · rw [if_neg hk] at hp
      exact ih hp

theorem cleanup_dir_gone (workDir : String) (temps : List LocalPath) (fs : FsState) :
    workDir ∉ (cleanup workDir temps fs).dirs := by
  intro hmem
  rw [cleanup] at hmem
  have h := (List.mem_filter.mp hmem).2
  simp at h

theorem cleanup_file_gone {workDir : String} (temps : List LocalPath) (fs : FsState)
    {f : LocalPath} (hf : f.dir = workDir) :
    f ∉ (cleanup workDir temps fs).files := by
  intro hmem
  rw [cleanup] at hmem
  have h := (List.mem_filter.mp hmem).2
  rw [hf] at h
  simp at h

theorem length_filterMap_of_isSome {α β : Type} (f : α → Option β) :
    ∀ l : List α, (∀ a ∈ l, (f a).isSome) → (l.filterMap f).length = l.length := by
  intro l
  induction l with
  | nil => intro _; rfl
  | cons a rest ih =>
    intro h
    cases hfa : f a with
    | none =>
      have := h a (by simp)
      rw [hfa] at this
      simp at this
    | some b =>
      rw [List.filterMap_cons_some hfa, List.length_cons, List.length_cons,
        ih (fun x hx => h x (by simp [hx]))]

theorem processStory_imagePaths (storyId text : String) (o : Oracle) (fs0 : FsState) :
    (processStory storyId text o fs0).imagePaths =
      imageLoop o (workDirOf storyId) (splitScenesStr text 5) 1 := by
  simp only [processStory]
  split <;> rfl

/-! ### Claim C1: total image failure marks the job failed and stops -/

/-- C1: if image generation fails for every scene, the run terminates without
invoking narration synthesis, video assembly, or publish, and the persisted
job record is updated to status failed with the non-empty error message
raised by the orchestrator. -/
theorem orchestratorAllFailC1 (storyId text : String) (o : Oracle) (fs0 : FsState)
    (h : ∀ i, o.imageOk i = false) :
    (processStory storyId text o fs0).db.status = "failed" ∧
    (processStory storyId text o fs0).db.error = some "Failed to generate any images" ∧
    "Failed to generate any images" ≠ "" ∧
    (processStory storyId text o fs0).audioCalls = 0 ∧
    (processStory storyId text o fs0).videoCalls = 0 ∧
    (processStory storyId text o fs0).uploadCalls = 0 := by
  have hnil := imageLoop_all_false (workDirOf storyId) h (splitScenesStr text 5) 1
  refine ⟨?_, ?_, by decide, ?_, ?_, ?_⟩ <;>
    simp [processStory, hnil]

/-- Witness for C1: the all-fail provider stub on a five-scene prompt. -/
theorem orchestratorAllFailC1_witness :
    (processStory "j1" "S1. S2. S3. S4. S5." oracleAllFail ⟨[], []⟩).db.status = "failed" ∧
    (processStory "j1" "S1. S2. S3. S4. S5." oracleAllFail ⟨[], []⟩).db.error =
      some "Failed to generate any images" ∧
    "Failed to generate any images" ≠ "" ∧
    (processStory "j1" "S1. S2. S3. S4. S5." oracleAllFail ⟨[], []⟩).audioCalls = 0 ∧
    (processStory "j1" "S1. S2. S3. S4. S5." oracleAllFail ⟨[], []⟩).videoCalls = 0 ∧
    (processStory "j1" "S1. S2. S3. S4. S5." oracleAllFail ⟨[], []⟩).uploadCalls = 0 :=
  orchestratorAllFailC1 "j1" "S1. S2. S3. S4. S5." oracleAllFail ⟨[], []⟩ (fun _ => rfl)

/-! ### Claim C2: any run with at least one image completes -/

/-- C2: every run that generates at least one scene image ends with the job
record updated to status completed, persisting exactly the URLs the uploads
produced (for every upload oracle, so upload failures never cause status
failed); narration is called exactly once (no retry); when narration fails,
video assembly is skipped and the job still completes with audio_url = none,
video_url = none; when the image uploads succeed, image_urls is populated
with one URL per generated image. -/
theorem orchestratorCompletesC2 (storyId text : String) (o : Oracle) (fs0 : FsState)
    (h : (processStory storyId text o fs0).imagePaths ≠ []) :
    (processStory storyId text o fs0).db.status = "completed" ∧
    (processStory storyId text o fs0).db.image_urls =
      ((List.range (processStory storyId text o fs0).imagePaths.length).map
        (fun i => i + 1)).filterMap o.imgUpload ∧
    (processStory storyId text o fs0).db.audio_url =
      (if o.audioOk then o.audUpload else none) ∧
    (processStory storyId text o fs0).db.video_url =
      (if o.audioOk && o.videoOk then o.vidUpload else none) ∧
    (processStory storyId text o fs0).audioCalls = 1 ∧
    (o.audioOk = false →
      (processStory storyId text o fs0).db.audio_url = none ∧
      (processStory storyId text o fs0).db.video_url = none ∧
      (processStory storyId text o fs0).videoCalls = 0) ∧
    ((∀ k, (o.imgUpload k).isSome) →
      (processStory storyId text o fs0).db.image_urls.length =
        (processStory storyId text o fs0).imagePaths.length ∧
      (processStory storyId text o fs0).db.image_urls ≠ []) := by
  rw [processStory_imagePaths] at h
  have hlen := processStory_imagePaths storyId text o fs0
  refine ⟨?_, ?_, ?_, ?_, ?_, ?_, ?_⟩
  · simp [processStory, h]
  · rw [hlen]
    simp [processStory, h]
  · simp [processStory, h]
  · simp [processStory, h]
  · simp [processStory, h]
  · intro haud
    refine ⟨?_, ?_, ?_⟩ <;> simp [processStory, h, haud]
  · intro hup
    have h1 : (processStory storyId text o fs0).db.image_urls =
        ((List.range (imageLoop o (workDirOf storyId) (splitScenesStr text 5)
          1).length).map (fun i => i + 1)).filterMap o.imgUpload := by
      simp [processStory, h]
    have h2 := length_filterMap_of_isSome o.imgUpload
      (((List.range (imageLoop o (workDirOf storyId) (splitScenesStr text 5)
        1).length).map (fun i => i + 1))) (fun a _ => hup a)
    constructor
    · rw [h1, hlen, h2]
      simp
    · rw [h1]
      intro hne
      have h3 := congrArg List.length hne
      rw [h2] at h3
      simp at h3
      exact h h3

/-- Witness for C2: the narration-failure round-trip stub on a five-scene
prompt reaches completed with no audio or video and populated image URLs. -/
theorem orchestratorCompletesC2_witness :
    (processStory "j1" "S1. S2. S3. S4. S5." oracleNoAudio ⟨[], []⟩).db.status = "completed" ∧
    (processStory "j1" "S1. S2. S3. S4. S5." oracleNoAudio ⟨[], []⟩).db.audio_url = none ∧
    (processStory "j1" "S1. S2. S3. S4. S5." oracleNoAudio ⟨[], []⟩).db.video_url = none ∧
    (processStory "j1" "S1. S2. S3. S4. S5." oracleNoAudio ⟨[], []⟩).videoCalls = 0 ∧
    (processStory "j1" "S1. S2. S3. S4. S5." oracleNoAudio ⟨[], []⟩).audioCalls = 1 ∧
    (processStory "j1" "S1. S2. S3. S4. S5." oracleNoAudio ⟨[], []⟩).db.image_urls ≠ [] := by
  have h := orchestratorCompletesC2 "j1" "S1. S2. S3. S4. S5." oracleNoAudio ⟨[], []⟩
    (by decide)
  have h6 := h.2.2.2.2.2.1 rfl
  have h7 := (h.2.2.2.2.2.2 (fun k => rfl)).2
  exact ⟨h.1, h6.1, h6.2.1, h6.2.2, h.2.2.2.2.1, h7⟩

/-! ### Claim C3: workspace cleanup on every terminal path -/

theorem mem_ite_append_singleton {f : LocalPath} (A : List LocalPath)
    (x : LocalPath) (c : Bool) (hf : f ∈ (if c then A ++ [x] else A)) :
    f ∈ A ∨ f = x := by
  cases c
  · rw [if_neg (by simp)] at hf
    exact Or.inl hf
  · rw [if_pos rfl] at hf
    rcases List.mem_append.mp hf with h | h
    · exact Or.inl h
    · exact Or.inr (List.mem_singleton.mp h)

theorem temps_dir {w : String} {il : List LocalPath}
    (himg : ∀ p ∈ il, p.dir = w) (a vfile : LocalPath)
    (ha : a.dir = w) (hv : vfile.dir = w) (b v : Bool) :
    ∀ f ∈ (if b && v then (if b then il ++ [a] else il) ++ [vfile]
           else (if b then il ++ [a] else il)), f.dir = w := by
  intro f hf
  rcases mem_ite_append_singleton (if b then il ++ [a] else il) vfile (b && v) hf with
    h1 | h1
  · rcases mem_ite_append_singleton il a b h1 with h2 | h2
    · exact himg f h2
    · rw [h2]; exact ha
  · rw [h1]; exact hv

/-- C3: after every orchestrator run, whichever branch was taken, the per-job
workspace directory no longer exists and none of the locally produced files
(the recorded temp files: scene images, narration audio, assembled video)
exist on disk. -/
theorem orchestratorCleanupC3 (storyId text : String) (o : Oracle) (fs0 : FsState) :
    workDirOf storyId ∉ (processStory storyId text o fs0).fs.dirs ∧
    (∀ f ∈ (processStory storyId text o fs0).produced,
      f ∉ (processStory storyId text o fs0).fs.files) ∧
    (∀ f ∈ (processStory storyId text o fs0).fs.files,
      f.dir ≠ workDirOf storyId) := by
  have himg : ∀ p ∈ imageLoop o (workDirOf storyId) (splitScenesStr text 5) 1,
      p.dir = workDirOf storyId := fun p hp => imageLoop_dir hp
  have ha : workDirOf storyId ∉ (processStory storyId text o fs0).fs.dirs := by
    simp only [processStory]
    split
    · exact cleanup_dir_gone _ _ _
    · exact cleanup_dir_gone _ _ _
  have hc : ∀ f ∈ (processStory storyId text o fs0).fs.files,
      f.dir ≠ workDirOf storyId := by
    simp only [processStory]
    split <;>
    · intro f hf
      rw [cleanup] at hf
      have h2 := (List.mem_filter.mp hf).2
      simpa using h2
  have hp : ∀ f ∈ (processStory storyId text o fs0).produced,
      f.dir = workDirOf storyId := by
    simp only [processStory]
    split
    · exact himg
    · exact temps_dir himg ⟨workDirOf storyId, "narration.mp3"⟩
        ⟨workDirOf storyId, "story_video.mp4"⟩ rfl rfl o.audioOk o.videoOk
  refine ⟨ha, ?_, hc⟩
  intro f hf hmem
  exact hc f hmem (hp f hf)

/-! ### Claim C4: partial image failure skips scenes in order -/

/-- C4: when image generation fails permanently for some scenes and succeeds
for others, the failed scenes are skipped without any error reaching the
caller and the image list contains exactly the successful scenes, in their
original scene order: the loop output equals the in-order filter of the
scene indices by success, and with scenes {2,4} failing and {1,3,5}
succeeding the output is the images of scenes 1, 3, 5 in that order while
the job still completes. -/
theorem imageStagePartialC4 :
    (∀ (o : Oracle) (w : String) (scenes : List String) (k : Nat),
      imageLoop o w scenes k =
        (((List.range scenes.length).map (fun i => i + k)).filter
          (fun i => o.imageOk i)).map (scenePathOf w)) ∧
    (processStory "j1" "S1. S2. S3. S4. S5." oracleOdd ⟨[], []⟩).imagePaths =
      [scenePathOf (workDirOf "j1") 1, scenePathOf (workDirOf "j1") 3,
        scenePathOf (workDirOf "j1") 5] ∧
    (processStory "j1" "S1. S2. S3. S4. S5." oracleOdd ⟨[], []⟩).db.status =
      "completed" := by
  refine ⟨?_, by decide, by decide⟩
  intro o w scenes k
  exact imageLoop_eq_filter o w scenes k

/-! ### Claim C7: image retry policy -/

theorem genImageLoop_attempts_le (att : Nat → ImgAttempt) :
    ∀ (l a : Nat) (s : List Nat), (genImageLoop att a l s).attempts ≤ a + l := by
  intro l
  induction l with
  | zero => intro a s; simp [genImageLoop]
  | succ l ih =>
    intro a s
    rcases e : att a with _ | _ | _ | _
    · simp only [genImageLoop, e]
      omega
    · simp only [genImageLoop, e]
      by_cases hl : 0 < l
      · rw [if_pos hl]
        have h := ih (a + 1) (s ++ [2 ^ a * 2])
        omega
      · rw [if_neg hl]
        simp only []
        omega
    · simp only [genImageLoop, e]
      omega
    · simp only [genImageLoop, e]
      by_cases hl : 0 < l
      · rw [if_pos hl]
        have h := ih (a + 1) (s ++ [2 ^ a])
        omega
      · rw [if_neg hl]
        simp only []
        omega

/-- C7 counterexample: with a provider stub that rate-limits every attempt,
generate_image makes 3 attempts and sleeps 2 then 4 seconds; the claimed
wait list 2, 4, 8 never occurs because after the third failed attempt the
call raises instead of backing off, so no 8-second wait exists in any run of
this shape. -/
theorem imageRetryC7_cex :
    (generateImage "x" attAllRateLimit).sleeps = [2, 4] ∧
    (generateImage "x" attAllRateLimit).sleeps ≠ [2, 4, 8] ∧
    8 ∉ (generateImage "x" attAllRateLimit).sleeps ∧
    (generateImage "x" attAllRateLimit).attempts = 3 ∧
    (generateImage "x" attAllRateLimit).outcome = ImgOutcome.errRateLimit := by
  decide

set_option linter.unusedTactic false in
/-- C7 (amended): each per-scene generate_image call makes at most 3
attempts; when the provider rate-limits every attempt the backoff waits
between successive attempts are 2 then 4 seconds (formula 2^attempt * 2,
with only two gaps existing); on other transient failures throughout they
are 1 then 2 seconds (formula 2^attempt); on an invalid-prompt signal the
call fails immediately with no retry and no backoff; after exhausting all
attempts without success the call raises. -/
theorem imageRetryC7 (prompt : String) (att : Nat → ImgAttempt)
    (hp1 : pyStrip prompt.toList ≠ []) (hp2 : prompt.length ≤ 1000) :
    (generateImage prompt att).attempts ≤ 3 ∧
    ((∀ k, att k = ImgAttempt.rateLimit) →
      (generateImage prompt att).sleeps = [2, 4] ∧
      (generateImage prompt att).outcome = ImgOutcome.errRateLimit) ∧
    ((∀ k, att k = ImgAttempt.otherErr) →
      (generateImage prompt att).sleeps = [1, 2] ∧
      (generateImage prompt att).outcome = ImgOutcome.errOther) ∧
    (att 0 = ImgAttempt.invalidPrompt →
      (generateImage prompt att).outcome = ImgOutcome.errInvalidPrompt ∧
      (generateImage prompt att).sleeps = [] ∧
      (generateImage prompt att).attempts = 1) ∧
    ((∀ k, att k ≠ ImgAttempt.ok ∧ att k ≠ ImgAttempt.invalidPrompt) →
      (generateImage prompt att).outcome = ImgOutcome.errRateLimit ∨
      (generateImage prompt att).outcome = ImgOutcome.errOther) := by
  have hgen : generateImage prompt att = genImageLoop att 0 3 [] := by
    rw [generateImage, if_neg hp1, if_neg (by omega)]
  rw [hgen]
  refine ⟨?_, ?_, ?_, ?_, ?_⟩
  · exact genImageLoop_attempts_le att 3 0 []
  · intro h
    constructor <;> simp [genImageLoop, h]
  · intro h
    constructor <;> simp [genImageLoop, h]
  · intro h0
    refine ⟨?_, ?_, ?_⟩ <;> simp [genImageLoop, h0]
  · intro h
    rcases e0 : att 0 with _ | _ | _ | _ <;>
      rcases e1 : att 1 with _ | _ | _ | _ <;>
        rcases e2 : att 2 with _ | _ | _ | _ <;>
          first
            | exact absurd e0 (h 0).1
            | exact absurd e0 (h 0).2
            | exact absurd e1 (h 1).1
            | exact absurd e1 (h 1).2
            | exact absurd e2 (h 2).1
            | exact absurd e2 (h 2).2
            | (left; simp [genImageLoop, e0, e1, e2]; done)
            | (right; simp [genImageLoop, e0, e1, e2]; done)

/-- Witness for C7 at the all-rate-limited stub with a valid prompt. -/
theorem imageRetryC7_witness :
    (generateImage "x" attAllRateLimit).attempts ≤ 3 ∧
    (generateImage "x" attAllRateLimit).sleeps = [2, 4] ∧
    (generateImage "x" attAllRateLimit).outcome = ImgOutcome.errRateLimit := by
  have h := imageRetryC7 "x" attAllRateLimit (by decide) (by decide)
  exact ⟨h.1, (h.2.1 (fun k => rfl)).1, (h.2.1 (fun k => rfl)).2⟩

/-! ### Claim C8: video assembly duration arithmetic -/

/-- C8: duration_per_image equals the probed narration duration divided by
the number of images, and on the crossfade branch the transition duration is
min(1.0, duration_per_image / 3); with 3 images and a 9-second narration,
duration_per_image = 3.0 and the transition duration = min(1.0, 1.0) = 1.0. -/
theorem videoDurationsC8 :
    (∀ (d : ℚ) (n : Nat) (tr : Bool),
      (planVideo d n tr).duration_per_image = d / (n : ℚ) ∧
      (tr = true → 1 < n →
        (planVideo d n tr).transition = some (min 1 (d / (n : ℚ) / 3)))) ∧
    (planVideo 9 3 true).duration_per_image = 3 ∧
    (planVideo 9 3 true).transition = some 1 := by
  refine ⟨?_, ?_, ?_⟩
  · intro d n tr
    constructor
    · rw [planVideo]
      split <;> rfl
    · intro htr hn
      rw [planVideo, if_pos (by simp [htr, hn])]
  · norm_num [planVideo]
  · norm_num [planVideo]

/-- Witness for C8 on the transition branch at 8 seconds over 4 images. -/
theorem videoDurationsC8_witness :
    (planVideo 8 4 true).transition = some (min 1 ((8 : ℚ) / ((4 : Nat) : ℚ) / 3)) :=
  (videoDurationsC8.1 8 4 true).2 rfl (by norm_num)

/-! ### Claim C9: audio/video duration reconciliation -/

/-- C9: when muxing, if video and audio durations differ by more than 0.5
seconds, a uniform setpts speed scale of video_duration / audio_duration is
applied; if they differ by at most 0.5 seconds, no speed adjustment is
made. -/
theorem muxSpeedC9 (v a : ℚ) :
    ((1/2 : ℚ) < |v - a| → speedAdjust v a true = some (v / a)) ∧
    (|v - a| ≤ 1/2 → speedAdjust v a true = none) := by
  constructor
  · intro h
    rw [speedAdjust, if_pos]
    simpa using h
  · intro h
    rw [speedAdjust, if_neg]
    simpa using not_lt.mpr h

/-- Witness for C9: a 9-second video over a 3-second narration is scaled by
factor 3; durations 3.2 and 3 are left untouched. -/
theorem muxSpeedC9_witness :
    speedAdjust 9 3 true = some 3 ∧ speedAdjust (16/5) 3 true = none := by
  constructor
  · have h := (muxSpeedC9 9 3).1 (by norm_num)
    rw [h]
    norm_num
  · refine (muxSpeedC9 (16/5) 3).2 ?_
    rw [show (16/5 : ℚ) - 3 = 1/5 by norm_num, abs_of_nonneg (by norm_num)]
    norm_num

/-! ### Claim C10: story ownership checks -/

/-- C10: for each of get, update, and delete of a specific story: when the
stored document exists but its user_id differs from the requester's uid, the
endpoint returns 403 forbidden and the state — story documents, reviews, and
queued media-deletion tasks — is unchanged; when no document exists for the
story id, the endpoint returns 404 not found. -/
theorem storyOwnershipC10 (s : ApiState) (uid sid : String) (upd : StoryUpdate) :
    (∀ d, lookupStory s sid = some d → d.user_id ≠ uid →
      getStory s uid sid = (Except.error HErr.forbidden, s) ∧
      updateStory s uid sid upd = (Except.error HErr.forbidden, s) ∧
      deleteStory s uid sid = (Except.error HErr.forbidden, s)) ∧
    (lookupStory s sid = none →
      getStory s uid sid = (Except.error HErr.notFound, s) ∧
      updateStory s uid sid upd = (Except.error HErr.notFound, s) ∧
      deleteStory s uid sid = (Except.error HErr.notFound, s)) := by
  constructor
  · intro d hd hne
    refine ⟨?_, ?_, ?_⟩ <;> simp [getStory, updateStory, deleteStory, hd, hne]
  · intro h
    refine ⟨?_, ?_, ?_⟩ <;> simp [getStory, updateStory, deleteStory, h]

/-- Witness for C10: bob is forbidden on alice's story; an unknown id is not
found. -/
theorem storyOwnershipC10_witness :
    getStory demoState "bob" "s1" = (Except.error HErr.forbidden, demoState) ∧
    updateStory demoState "bob" "s1" ⟨none, none⟩ =
      (Except.error HErr.forbidden, demoState) ∧
    deleteStory demoState "bob" "s1" = (Except.error HErr.forbidden, demoState) ∧
    getStory demoState "bob" "nope" = (Except.error HErr.notFound, demoState) := by
  have h1 := (storyOwnershipC10 demoState "bob" "s1" ⟨none, none⟩).1
    { user_id := "alice", title := "T", text_prompt := "P", status := "completed",
      image_urls := ["https://img/1"], audio_url := some "https://aud",
      video_url := none, cloudinary_ids := ["cid1"] } (by decide) (by decide)
  have h2 := (storyOwnershipC10 demoState "bob" "nope" ⟨none, none⟩).2 (by decide)
  exact ⟨h1.1, h1.2.1, h1.2.2, h2.1⟩

end Storyteller
